import Mathlib

/-!
Verification development for the `imagesearch` Go module
(`google-images.go`).  The file shallowly embeds the final revision of the
module (the package containing `unpack`, `Images`, `Urls`, `Download`,
`IsUnpackErr`) together with the first draft revision (`findImages` and the
first `Images`), and proves properties of the embedded definitions.

Modelling conventions:
- Go byte strings are modelled as `List Char` (all fixtures are ASCII, where
  byte indices and character indices coincide).
- Go `interface\x7b\x7d` values produced by `json.Unmarshal` are modelled by
  the inductive type `Json`; a missing map key and JSON `null` both unmarshal
  to a nil interface in Go, and both are modelled by `Json.null`.
- Go run-time panics (out-of-range slice or array index, failed type
  assertion, slicing with a negative bound) are modelled as the explicit
  outcome `GoErr.panicked msg`; a Go function that can panic is embedded as a
  total function into `Except GoErr`.
- The standard-library composition `json.Unmarshal ∘ html.UnescapeString`
  (an external collaborator, spec section 4.2 step 1) is abstracted as a
  `decode` parameter; the concrete executable decoder `goDecode` defined
  below instantiates it for entity-free ASCII fixtures.
- `DownloadImage` together with the filename-deduplication glob is pure I/O
  (an external collaborator, spec section 1); it is abstracted as an oracle
  `dl : String → Option String` mapping an asset url to the written file
  path, `none` meaning the download failed (in which case the Go function
  returns the pair of the empty string and a non-nil error).
-/

set_option maxRecDepth 10000

/-- Generic JSON value, the shallow embedding of the Go `interface\x7b\x7d`
tree produced by `json.Unmarshal`.  Numbers in the fixtures are integers,
so `num` carries an `Int`. -/
inductive Json where
  | null : Json
  | bool (b : Bool) : Json
  | num (n : Int) : Json
  | str (s : String) : Json
  | arr (elems : List Json) : Json
  | obj (fields : List (String × Json)) : Json

/-- The `Image` struct of the Go module: url of the asset, url of the source
page, and the base of the source url. -/
structure Image where
  Url : String
  Source : String
  Base : String
deriving DecidableEq, Repr

/-- Outcomes a call of the embedded Go functions can end in, besides a
successful return: the sentinel error `errUnpack` (Go line 520), a JSON
decode error carrying the decoder message, or a run-time panic carrying the
panic message. -/
inductive GoErr where
  | errUnpack : GoErr
  | decodeErr (msg : String) : GoErr
  | panicked (msg : String) : GoErr
deriving DecidableEq, Repr

/-- Embedding of `IsUnpackErr` (Go lines 740-742): Go compares the error
value with the sentinel `errUnpack` by identity; the decode errors and any
other error value compare unequal. -/
def IsUnpackErr : GoErr → Bool
  | .errUnpack => true
  | _ => false

/-- Embedding of Go `strings.Index`: position of the first occurrence of
`pat` in `s` (the least `i` with `pat` a prefix of `s.drop i`), `none`
standing for the Go return value `-1`. -/
def firstIdx (pat : List Char) : List Char → Option Nat
  | [] => if pat.isPrefixOf ([] : List Char) then some 0 else none
  | c :: rest =>
    if pat.isPrefixOf (c :: rest) then some 0
    else (firstIdx pat rest).map (· + 1)

/-- Embedding of Go `strings.LastIndex`: position of the last occurrence of
`pat` in `s` (the greatest `i` with `pat` a prefix of `s.drop i`), `none`
standing for the Go return value `-1`. -/
def lastIdx (pat : List Char) : List Char → Option Nat
  | [] => if pat.isPrefixOf ([] : List Char) then some 0 else none
  | c :: rest =>
    match (lastIdx pat rest).map (· + 1) with
    | some j => some j
    | none => if pat.isPrefixOf (c :: rest) then some 0 else none

/-- The marker token `AF_initDataCallback` searched for by the locator. -/
def markerTok : List Char := "AF_initDataCallback".data

/-- The closing marker `</script>` searched for by the locator. -/
def closeTok : List Char := "</script>".data

/-- Locator part of `unpack` (Go lines 759-775): find the last occurrence of
the marker, slice from it, find the first `[`, slice from it, compute
`endChar := strings.Index(page, "</script>") - 20`, return `errUnpack` when
`endChar == -1`, and slice `page[:endChar]`.  When `</script>` is absent,
`strings.Index` returns `-1`, so `endChar = -21`, the `== -1` guard does not
fire, and the negative slice bound panics. -/
def locate (page : List Char) : Except GoErr (List Char) :=
  match lastIdx markerTok page with
  | none => .error .errUnpack
  | some scriptStart =>
    let page1 := page.drop scriptStart
    match firstIdx ['['] page1 with
    | none => .error .errUnpack
    | some startChar =>
      let page2 := page1.drop startChar
      let closeIdx : Int :=
        match firstIdx closeTok page2 with
        | none => -1
        | some k => (k : Int)
      let endChar : Int := closeIdx - 20
      if endChar = -1 then .error .errUnpack
      else if endChar < 0 then .error (.panicked "slice bounds out of range")
      else .ok (page2.take endChar.toNat)

/-- Locator part of the first-draft `findImages` (Go lines 182-189): the
same three searches and slices, but with no guard at all; a failed search
returns `-1` and the following slice panics, and `page[:endChar]` with any
negative `endChar` (including `-1`) panics. -/
def locateD1 (page : List Char) : Except GoErr (List Char) :=
  match lastIdx markerTok page with
  | none => .error (.panicked "slice bounds out of range")
  | some scriptStart =>
    let page1 := page.drop scriptStart
    match firstIdx ['['] page1 with
    | none => .error (.panicked "slice bounds out of range")
    | some startChar =>
      let page2 := page1.drop startChar
      let closeIdx : Int :=
        match firstIdx closeTok page2 with
        | none => -1
        | some k => (k : Int)
      let endChar : Int := closeIdx - 20
      if endChar < 0 then .error (.panicked "slice bounds out of range")
      else .ok (page2.take endChar.toNat)

/-- Go type assertion `v.([]interface\x7b\x7d)` (single-result form): yields
the element list when `v` is an array, otherwise panics (also on a nil
interface, i.e. `Json.null`). -/
def asArr : Json → Except GoErr (List Json)
  | .arr xs => .ok xs
  | _ => .error (.panicked "interface conversion")

/-- Go type assertion `v.(map[string]interface\x7b\x7d)`. -/
def asObj : Json → Except GoErr (List (String × Json))
  | .obj kvs => .ok kvs
  | _ => .error (.panicked "interface conversion")

/-- Go type assertion `v.(string)`. -/
def asStr : Json → Except GoErr String
  | .str s => .ok s
  | _ => .error (.panicked "interface conversion")

/-- Go slice indexing `xs[i]`: panics when `i` is out of range. -/
def idx (xs : List Json) (i : Nat) : Except GoErr Json :=
  match xs.get? i with
  | some v => .ok v
  | none => .error (.panicked "index out of range")

/-- Go map lookup `m[key]` on `map[string]interface\x7b\x7d`: a missing key
yields the zero value, a nil interface, modelled as `Json.null`. -/
def mapGet : List (String × Json) → String → Json
  | [], _ => Json.null
  | (k, v) :: rest, key => if k = key then v else mapGet rest key

/-- Per-entry projection, the loop body of `unpack` (Go lines 787-798,
identical to the first-draft lines 202-213):
`obj := imageObject.([]interface\x7b\x7d)[0].([]interface\x7b\x7d)[0].(map[string]interface\x7b\x7d)["444383007"].([]interface\x7b\x7d)[1]`,
the `obj != nil` test, and on the non-nil branch the three field reads.
Returns `some image` when a record is appended, `none` when the entry is
skipped because `obj` is nil. -/
def projectEntry (imageObject : Json) : Except GoErr (Option Image) := do
  let e ← asArr imageObject
  let t0 ← idx e 0
  let e0 ← asArr t0
  let t1 ← idx e0 0
  let m ← asObj t1
  let magic ← asArr (mapGet m "444383007")
  let obj ← idx magic 1
  match obj with
  | .null => pure none
  | _ => do
    let objArr ← asArr obj
    let u3 ← idx objArr 3
    let u3Arr ← asArr u3
    let u0 ← idx u3Arr 0
    let url ← asStr u0
    let objArr2 ← asArr obj
    let v9 ← idx objArr2 9
    let m9 ← asObj v9
    let sourceInfo ← asArr (mapGet m9 "2003")
    let s2 ← idx sourceInfo 2
    let source ← asStr s2
    let s17 ← idx sourceInfo 17
    let base ← asStr s17
    pure (some { Url := url, Source := source, Base := base })

/-- The `for _, imageObject := range imageObjects` loop of `unpack`
(Go lines 787-798): projects each entry in order, appending the produced
records; a panic anywhere aborts the whole call. -/
def collectImages : List Json → Except GoErr (List Image)
  | [] => .ok []
  | e :: rest => do
    let r ← projectEntry e
    let tail ← collectImages rest
    match r with
    | some img => pure (img :: tail)
    | none => pure tail

/-- Navigation to the entry list and the projection loop (Go lines 784-799):
`imageJson[56].([]interface\x7b\x7d)[1].([]interface\x7b\x7d)[0].([]interface\x7b\x7d)[0].([]interface\x7b\x7d)[1].([]interface\x7b\x7d)[0].([]interface\x7b\x7d)`
followed by the per-entry loop.  Every index and assertion is unguarded. -/
def navigate (imageJson : List Json) : Except GoErr (List Image) := do
  let t56 ← idx imageJson 56
  let a0 ← asArr t56
  let t1 ← idx a0 1
  let a1 ← asArr t1
  let t2 ← idx a1 0
  let a2 ← asArr t2
  let t3 ← idx a2 0
  let a3 ← asArr t3
  let t4 ← idx a3 1
  let a4 ← asArr t4
  let t5 ← idx a4 0
  let imageObjects ← asArr t5
  collectImages imageObjects

/-- Embedding of the final-revision `unpack` (Go lines 757-800): locate the
embedded blob, decode it (`decode` abstracts
`json.Unmarshal ∘ html.UnescapeString` unmarshalling into `[]interface\x7b\x7d`;
a decode failure is returned as-is, distinct from `errUnpack`), then run the
unguarded navigation and projection. -/
def unpack (decode : List Char → Except String (List Json))
    (page : List Char) : Except GoErr (List Image) := do
  let located ← locate page
  match decode located with
  | .error e => .error (.decodeErr e)
  | .ok imageJson => navigate imageJson

/-- Embedding of the first-draft `findImages` (Go lines 181-215): identical
decode, navigation and projection, but with the guardless locator. -/
def findImages (decode : List Char → Except String (List Json))
    (page : List Char) : Except GoErr (List Image) := do
  let located ← locateD1 page
  match decode located with
  | .error e => .error (.decodeErr e)
  | .ok imageJson => navigate imageJson

/-- Post-fetch pipeline of the final-revision `Images` (Go lines 575-593):
`unpack` followed by the truncation
`if len(images) > limit && limit > 0 \x7b images = images[:limit] \x7d`. -/
def ImagesFromPage (decode : List Char → Except String (List Json))
    (page : List Char) (limit : Int) : Except GoErr (List Image) :=
  match unpack decode page with
  | .error e => .error e
  | .ok images =>
    .ok (if limit < (images.length : Int) ∧ 0 < limit
         then images.take limit.toNat else images)

/-- Post-fetch pipeline of the final-revision `Urls` (Go lines 597-619):
same extraction and truncation as `Images`, then the loop collecting
`image.Url`. -/
def UrlsFromPage (decode : List Char → Except String (List Json))
    (page : List Char) (limit : Int) : Except GoErr (List String) :=
  match unpack decode page with
  | .error e => .error e
  | .ok images =>
    let images :=
      if limit < (images.length : Int) ∧ 0 < limit
      then images.take limit.toNat else images
    .ok (images.map Image.Url)

/-- Post-fetch pipeline of the first-draft `Images` (Go lines 54-72):
`findImages` followed by the truncation
`if len(images) > limit \x7b images = images[:limit] \x7d` with no
`limit > 0` conjunct; Go slicing `images[:limit]` with a negative `limit`
panics. -/
def ImagesD1FromPage (decode : List Char → Except String (List Json))
    (page : List Char) (limit : Int) : Except GoErr (List Image) :=
  match findImages decode page with
  | .error e => .error e
  | .ok images =>
    if limit < (images.length : Int) then
      if limit < 0 then .error (.panicked "slice bounds out of range")
      else .ok (images.take limit.toNat)
    else .ok images

/-- Inner retry loop of the final-revision `Download` (Go lines 656-666):
starting from the current url, try each remaining url in order until one
download succeeds.  Returns `some (p, k)` when the download of the
`k`-th url of the given suffix succeeds with path `p`, and `none` when all
remaining urls fail (in Go the loop then leaves `file == ""` and a non-nil
`err` behind). -/
def firstSuccess (dl : String → Option String) : List String → Option (String × Nat)
  | [] => none
  | u :: rest =>
    match dl u with
    | some p => some (p, 0)
    | none =>
      match firstSuccess dl rest with
      | some (p, k) => some (p, k + 1)
      | none => none

/-- Outer loop of the final-revision `Download` (Go lines 640-670), made
total with a fuel argument: the loop runs `for len(paths) < limit`; inside,
`i >= len(urls)` sets `missing = limit - len(paths)` and breaks; otherwise
the retry loop runs and — crucially, even when it exhausted the urls with
every attempt failing — `paths = append(paths, file)` appends `file`, which
is the empty string after an exhausted retry.  Each iteration appends
exactly one path, so `limit.toNat + 1` fuel (supplied by `DownloadGo`) is
never exhausted. -/
def downloadFrom (dl : String → Option String) (urls : List String)
    (limit : Int) : Nat → Nat → List String → Int → List String × Int
  | 0, _, paths, missing => (paths, missing)
  | fuel + 1, i, paths, missing =>
    if (paths.length : Int) < limit then
      if urls.length ≤ i then (paths, limit - (paths.length : Int))
      else
        match firstSuccess dl (urls.drop i) with
        | some (p, k) =>
          downloadFrom dl urls limit fuel (i + k + 1) (paths ++ [p]) missing
        | none =>
          downloadFrom dl urls limit fuel (urls.length + 1) (paths ++ [""])
            (limit - (paths.length : Int))
    else (paths, missing)

/-- The final-revision `Download` (Go lines 627-673) after `Urls` returned
the url list: runs the loop from `i = 0` with empty `paths` and `missing = 0`
and returns `(paths, missing, nil)` — the returned error is always nil on
this path. -/
def DownloadGo (dl : String → Option String) (urls : List String)
    (limit : Int) : List String × Int × Option GoErr :=
  let r := downloadFrom dl urls limit (limit.toNat + 1) 0 [] 0
  (r.1, r.2, none)

/-- Opening brace character, written via its code point. -/
def lbrace : Char := Char.ofNat 123

/-- Closing brace character, written via its code point. -/
def rbrace : Char := Char.ofNat 125

/-- Whitespace skipping for the concrete JSON decoder. -/
def skipWs : List Char → List Char
  | [] => []
  | c :: rest =>
    if c = ' ' ∨ c = '\n' ∨ c = '\t' ∨ c = '\r' then skipWs rest else c :: rest

/-- Digit-string to natural number conversion for the concrete decoder. -/
def digitsToNat (ds : List Char) : Nat :=
  ds.foldl (fun acc c => acc * 10 + (c.toNat - 48)) 0

mutual

/-- Value parser of the concrete executable JSON decoder `goDecode`,
supporting the fragment needed by the fixtures: `null`, `true`, `false`,
(optionally negated) integer literals, escape-free strings, arrays and
objects.  The fuel argument only serves termination; `goDecode` supplies
more fuel than any input can consume. -/
def parseVal : Nat → List Char → Except String (Json × List Char)
  | 0, _ => .error "json: depth exceeded"
  | fuel + 1, s =>
    match skipWs s with
    | [] => .error "unexpected end of JSON input"
    | c :: rest =>
      if c = 'n' then
        if "ull".data.isPrefixOf rest then .ok (Json.null, rest.drop 3)
        else .error "invalid character"
      else if c = 't' then
        if "rue".data.isPrefixOf rest then .ok (Json.bool true, rest.drop 3)
        else .error "invalid character"
      else if c = 'f' then
        if "alse".data.isPrefixOf rest then .ok (Json.bool false, rest.drop 4)
        else .error "invalid character"
      else if c = '"' then
        let content := rest.takeWhile (fun d => d ≠ '"')
        match rest.drop content.length with
        | '"' :: rest2 =>
          if content.contains '\\' then .error "string escapes unsupported"
          else .ok (Json.str (String.mk content), rest2)
        | _ => .error "unterminated string literal"
      else if c = '-' then
        match rest with
        | d :: _ =>
          if d.isDigit then
            let ds := rest.takeWhile Char.isDigit
            .ok (Json.num (-(digitsToNat ds : Int)), rest.drop ds.length)
          else .error "invalid character"
        | [] => .error "unexpected end of JSON input"
      else if c.isDigit then
        let ds := (c :: rest).takeWhile Char.isDigit
        .ok (Json.num (digitsToNat ds : Int), (c :: rest).drop ds.length)
      else if c = '[' then
        match skipWs rest with
        | ']' :: rest2 => .ok (Json.arr [], rest2)
        | _ => do
          let (elems, rest2) ← parseElems fuel rest
          pure (Json.arr elems, rest2)
      else if c = lbrace then
        match skipWs rest with
        | d :: rest2 =>
          if d = rbrace then .ok (Json.obj [], rest2)
          else do
            let (fields, rest3) ← parseFields fuel (d :: rest2)
            pure (Json.obj fields, rest3)
        | [] => .error "unexpected end of JSON input"
      else .error "invalid character"

/-- Comma-separated array elements, up to and including the closing `]`. -/
def parseElems : Nat → List Char → Except String (List Json × List Char)
  | 0, _ => .error "json: depth exceeded"
  | fuel + 1, s => do
    let (v, rest) ← parseVal fuel s
    match skipWs rest with
    | ',' :: rest2 => do
      let (vs, rest3) ← parseElems fuel rest2
      pure (v :: vs, rest3)
    | ']' :: rest2 => pure ([v], rest2)
    | _ => .error "invalid character after array element"

/-- Comma-separated object fields, up to and including the closing brace. -/
def parseFields : Nat → List Char → Except String (List (String × Json) × List Char)
  | 0, _ => .error "json: depth exceeded"
  | fuel + 1, s =>
    match skipWs s with
    | '"' :: rest =>
      let key := rest.takeWhile (fun d => d ≠ '"')
      match rest.drop key.length with
      | '"' :: rest2 =>
        if key.contains '\\' then .error "string escapes unsupported"
        else
          match skipWs rest2 with
          | ':' :: rest3 => do
            let (v, rest4) ← parseVal fuel rest3
            match skipWs rest4 with
            | ',' :: rest5 => do
              let (fs, rest6) ← parseFields fuel rest5
              pure ((String.mk key, v) :: fs, rest6)
            | d :: rest5 =>
              if d = rbrace then pure ([(String.mk key, v)], rest5)
              else .error "invalid character after object value"
            | [] => .error "unexpected end of JSON input"
          | _ => .error "expected colon in object"
      | _ => .error "unterminated string literal"
    | _ => .error "expected object key"

end

/-- Concrete executable decoder instantiating the `decode` parameter of
`unpack`: parses the located substring as JSON and, like
`json.Unmarshal(data, &imageJson)` with `imageJson []interface\x7b\x7d`,
fails when the document is not syntactically valid JSON, has trailing
content, or its top-level value is not an array.  The fixtures contain no
HTML entities, so `html.UnescapeString` is the identity on them. -/
def goDecode (s : List Char) : Except String (List Json) :=
  match parseVal (s.length + 1) s with
  | .error e => .error e
  | .ok (v, rest) =>
    if skipWs rest ≠ [] then .error "invalid character after top-level value"
    else
      match v with
      | .arr xs => .ok xs
      | _ => .error "json: cannot unmarshal value into Go value of type []interface"

/-- Fixture builder: wraps a JSON document the way the upstream page embeds
it — the marker token, the document, exactly 20 trailing filler characters
(standing for the trailing call and semicolon the locator trims), and the
closing script tag.  `locate` applied to the result returns exactly the
document. -/
def mkPage (json : String) : List Char :=
  ("AF_initDataCallback" ++ json ++ "01234567890123456789</script>").data

/-- Fixture builder: one candidate entry carrying the given asset url,
source url and source base at the positions the navigation path reads. -/
def mkEntry (url source base : String) : String :=
  "[[\x7b\"444383007\":[0,[0,0,0,[\"" ++ url ++ "\"],0,0,0,0,0,\x7b\"2003\":[0,0,\""
    ++ source ++ "\",0,0,0,0,0,0,0,0,0,0,0,0,0,0,\"" ++ base ++ "\"]\x7d]]\x7d]]"

/-- Fixture: a candidate entry whose details value (index 1 under the magic
key) is JSON null — the documented "no image info in this slot" case. -/
def nullEntryStr : String := "[[\x7b\"444383007\":[0,null]\x7d]]"

/-- Fixture builder: a top-level document with 57 elements whose element 56
contains the given entries at the position the navigation path expects. -/
def mkTop (entries : List String) : String :=
  "[" ++ String.join (List.replicate 56 "0,") ++ "[0,[[[0,[["
    ++ String.intercalate "," entries ++ "]]]]]]" ++ "]"

/-- Fixture page with two well-formed entries. -/
def pageTwo : List Char :=
  mkPage (mkTop [mkEntry "u1" "s1" "b1", mkEntry "u2" "s2" "b2"])

/-- Fixture page with one well-formed entry. -/
def pageOne : List Char := mkPage (mkTop [mkEntry "u1" "s1" "b1"])

/-- Fixture page with five entries of which the third has a null details
slot. -/
def pageFive : List Char :=
  mkPage (mkTop [mkEntry "u1" "s1" "b1", mkEntry "u2" "s2" "b2", nullEntryStr,
                 mkEntry "u4" "s4" "b4", mkEntry "u5" "s5" "b5"])

/-- Fixture page whose single entry has an empty string in the asset-url
position. -/
def pageEmptyUrl : List Char := mkPage (mkTop [mkEntry "" "s1" "b1"])

/-- Fixture page whose embedded document is the empty JSON array: valid
JSON, but with too few top-level elements for the navigation path. -/
def pageEmptyArray : List Char := mkPage "[]"

/-- Fixture page containing the marker and a bracket but no closing
`</script>` tag. -/
def pageNoClose : List Char := "AF_initDataCallback[".data

/-- Fixture page not containing the marker token. -/
def pageNoMarker : List Char := "a page without the magic token".data

/-- Fixture page containing the marker but no `[` after it. -/
def pageNoBracket : List Char := "AF_initDataCallback and nothing else".data

/-- Fixture page whose located substring is not valid JSON. -/
def pageBadJson : List Char := mkPage "[zz"

deriving instance DecidableEq for Except

/-- Bind on `Except` returns `ok` exactly when both stages do. -/
theorem bindOkIff {ε α β : Type} (x : Except ε α) (f : α → Except ε β) (b : β) :
    x >>= f = .ok b ↔ ∃ a, x = .ok a ∧ f a = .ok b := by
  cases x <;> simp [Bind.bind, Except.bind]

/-- Inversion for the array assertion. -/
theorem asArr_ok {j : Json} {xs : List Json} (h : asArr j = .ok xs) :
    j = Json.arr xs := by
  cases j <;> simp_all [asArr]

/-- Inversion for the map assertion. -/
theorem asObj_ok {j : Json} {kvs : List (String × Json)} (h : asObj j = .ok kvs) :
    j = Json.obj kvs := by
  cases j <;> simp_all [asObj]

/-- Inversion for the string assertion. -/
theorem asStr_ok {j : Json} {s : String} (h : asStr j = .ok s) :
    j = Json.str s := by
  cases j <;> simp_all [asStr]

/-- Inversion for Go slice indexing. -/
theorem idx_ok {xs : List Json} {i : Nat} {v : Json} (h : idx xs i = .ok v) :
    xs[i]? = some v := by
  unfold idx at h
  cases heq : xs.get? i <;> rw [heq] at h
  · cases h
  · cases h
    rw [← List.get?_eq_getElem?]
    exact heq

/-- Guarded view of a JSON array, spec-style safe navigation. -/
def jArr : Json → Option (List Json)
  | .arr xs => some xs
  | _ => none

/-- Guarded view of a JSON object, spec-style safe navigation. -/
def jObj : Json → Option (List (String × Json))
  | .obj kvs => some kvs
  | _ => none

/-- Guarded view of a JSON string, spec-style safe navigation. -/
def jStr : Json → Option String
  | .str s => some s
  | _ => none

/-- Guarded navigation to the details value of one candidate entry, at
`[0][0]["444383007"][1]`, spec-style. -/
def entryDetails (e : Json) : Option Json := do
  let a ← jArr e
  let t0 ← a.get? 0
  let a0 ← jArr t0
  let t1 ← a0.get? 0
  let m ← jObj t1
  let magic ← jArr (mapGet m "444383007")
  magic.get? 1

/-- Guarded navigation to the asset-url string of a details value, at
`[3][0]`, spec-style. -/
def detailsUrl (obj : Json) : Option String := do
  let objArr ← jArr obj
  let u3 ← objArr.get? 3
  let u3Arr ← jArr u3
  let u0 ← u3Arr.get? 0
  jStr u0

/-- Guarded navigation to the source-url and base strings of a details
value, at indices 2 and 17 of the `"2003"` mapping under index 9,
spec-style. -/
def detailsSourceBase (obj : Json) : Option (String × String) := do
  let objArr ← jArr obj
  let v9 ← objArr.get? 9
  let m9 ← jObj v9
  let sourceInfo ← jArr (mapGet m9 "2003")
  let s2 ← sourceInfo.get? 2
  let source ← jStr s2
  let s17 ← sourceInfo.get? 17
  let base ← jStr s17
  pure (source, base)

/-- Guarded navigation (spec sections 4.2 and 9) reading the three field
strings of one candidate entry at the fixed positions the code uses.
Returns `some` exactly when every access succeeds with a string at each
field position. -/
def entryStrings (e : Json) : Option (String × String × String) := do
  let obj ← entryDetails e
  let url ← detailsUrl obj
  let sb ← detailsSourceBase obj
  pure (url, sb.1, sb.2)

/-- A candidate entry whose details slot (index 1 under the magic key) is
JSON null; the first component of the magic array is arbitrary. -/
def nullDetailsEntry (v : Json) : Json :=
  Json.arr [Json.arr [Json.obj [("444383007", Json.arr [v, Json.null])]]]

/-- Projection of a null-details entry takes the `obj != nil` false branch
and yields no record and no error. -/
theorem projectEntry_nullDetails (v : Json) :
    projectEntry (nullDetailsEntry v) = .ok none := rfl

/-- Dropping a null-details entry anywhere in the entry list leaves the
collected records (and any error outcome) unchanged. -/
theorem collect_skips_nullDetails (pre post : List Json) (v : Json) :
    collectImages (pre ++ nullDetailsEntry v :: post) = collectImages (pre ++ post) := by
  induction pre with
  | nil =>
    simp only [List.nil_append, collectImages]
    rw [projectEntry_nullDetails v]
    cases h : collectImages post <;>
      simp [h, Bind.bind, Except.bind, pure, Except.pure]
  | cons p pre ih =>
    simp only [List.cons_append, collectImages, List.append_eq, ih]

/-- Unfolding lemma: `Images` on a page whose extraction succeeds. -/
theorem ImagesFromPage_ok
    (decode : List Char → Except String (List Json)) (page : List Char)
    (limit : Int) (l : List Image) (h : unpack decode page = .ok l) :
    ImagesFromPage decode page limit =
      .ok (if limit < (l.length : Int) ∧ 0 < limit then l.take limit.toNat else l) := by
  unfold ImagesFromPage
  rw [h]

/-- Unfolding lemma: `Images` on a page whose extraction fails. -/
theorem ImagesFromPage_err
    (decode : List Char → Except String (List Json)) (page : List Char)
    (limit : Int) (e : GoErr) (h : unpack decode page = .error e) :
    ImagesFromPage decode page limit = .error e := by
  unfold ImagesFromPage
  rw [h]

/-- Unfolding lemma: `Urls` on a page whose extraction succeeds. -/
theorem UrlsFromPage_ok
    (decode : List Char → Except String (List Json)) (page : List Char)
    (limit : Int) (l : List Image) (h : unpack decode page = .ok l) :
    UrlsFromPage decode page limit =
      .ok ((if limit < (l.length : Int) ∧ 0 < limit
            then l.take limit.toNat else l).map Image.Url) := by
  unfold UrlsFromPage
  rw [h]

/-- C1 (counterexample): the embedded document `[]` is syntactically valid
JSON whose shape does not match the navigation path (too few top-level
elements), yet `unpack` ends in an uncategorized index-out-of-range panic,
not in the classified `errUnpack`. -/
theorem unpack_schema_mismatch_panics_cex :
    unpack goDecode pageEmptyArray = .error (.panicked "index out of range") ∧
      unpack goDecode pageEmptyArray ≠ .error .errUnpack := by decide

/-- C1 (amended): for every decoded top-level array with at most 56
elements — a syntactically valid but schema-mismatched document — `unpack`
fails with an uncategorized index-out-of-range panic rather than with the
classified format error `errUnpack`: only the three marker-location guards
produce `errUnpack`, and no navigation step is guarded. -/
theorem unpack_schema_mismatch_panics
    (decode : List Char → Except String (List Json)) (page s : List Char)
    (tree : List Json) (hloc : locate page = .ok s)
    (hdec : decode s = .ok tree) (hlen : tree.length ≤ 56) :
    unpack decode page = .error (.panicked "index out of range") := by
  unfold unpack
  rw [hloc]
  simp only [Bind.bind, Except.bind]
  rw [hdec]
  unfold navigate
  have h56 : tree[56]? = none := List.getElem?_eq_none hlen
  simp [Bind.bind, Except.bind, idx, h56]

/-- C1 (witness): the amended theorem applied to the concrete page whose
embedded document is `[]`. -/
theorem unpack_schema_mismatch_panics_witness :
    unpack goDecode pageEmptyArray = .error (.panicked "index out of range") :=
  unpack_schema_mismatch_panics goDecode pageEmptyArray "[]".data []
    (by decide) rfl (by decide)

/-- C2: of the three locator failure modes, the missing marker and the
missing `[` do return the classified `errUnpack`, but a page whose closing
`</script>` marker is missing makes `strings.Index` return `-1`, so
`endChar = -21`, the `endChar == -1` guard does not fire, and the slice
`page[:endChar]` panics instead of returning `errUnpack`. -/
theorem unpack_missing_close_marker_panics :
    unpack goDecode pageNoClose = .error (.panicked "slice bounds out of range") ∧
      unpack goDecode pageNoMarker = .error .errUnpack ∧
      unpack goDecode pageNoBracket = .error .errUnpack := by decide

/-- C3: on every page whose extraction succeeds with records `imgs` and
every non-negative limit, `Images` returns all of `imgs` when the limit is
0, and the first `min limit imgs.length` records when the limit is
positive; the result is always an order-preserving prefix of `imgs`, never
padded and never an error. -/
theorem Images_limit_truncation
    (decode : List Char → Except String (List Json)) (page : List Char)
    (limit : Int) (imgs : List Image)
    (h : unpack decode page = .ok imgs) (_hl : 0 ≤ limit) :
    ∃ r, ImagesFromPage decode page limit = .ok r ∧
      (limit = 0 → r = imgs) ∧
      (0 < limit → r = imgs.take limit.toNat ∧
        r.length = min limit.toNat imgs.length) ∧
      (∃ rest, imgs = r ++ rest) ∧ r.length ≤ imgs.length := by
  have hok := ImagesFromPage_ok decode page limit imgs h
  by_cases hc : limit < (imgs.length : Int) ∧ 0 < limit
  · rw [if_pos hc] at hok
    refine ⟨imgs.take limit.toNat, hok, ?_, ?_, ?_, ?_⟩
    · intro h0
      exact absurd hc.2 (by omega)
    · intro _
      exact ⟨rfl, List.length_take _ _⟩
    · exact ⟨imgs.drop limit.toNat, (List.take_append_drop _ _).symm⟩
    · rw [List.length_take]
      exact Nat.min_le_right _ _
  · rw [if_neg hc] at hok
    refine ⟨imgs, hok, fun _ => rfl, ?_, ⟨[], by simp⟩, le_refl _⟩
    intro hpos
    have hge : (imgs.length : Int) ≤ limit := by
      rcases not_and_or.mp hc with h1 | h2
      · omega
      · exact absurd hpos h2
    have hn : imgs.length ≤ limit.toNat := by omega
    exact ⟨(List.take_of_length_le hn).symm, (Nat.min_eq_right hn).symm⟩

/-- The two records extracted from `pageTwo`. -/
def imgsTwo : List Image := [⟨"u1", "s1", "b1"⟩, ⟨"u2", "s2", "b2"⟩]

/-- C3 (witness): the truncation theorem applied to a concrete two-record
page with limit 1. -/
theorem Images_limit_truncation_witness :
    ∃ r, ImagesFromPage goDecode pageTwo 1 = .ok r ∧
      ((1 : Int) = 0 → r = imgsTwo) ∧
      ((0 : Int) < 1 → r = imgsTwo.take (1 : Int).toNat ∧
        r.length = min (1 : Int).toNat imgsTwo.length) ∧
      (∃ rest, imgsTwo = r ++ rest) ∧ r.length ≤ imgsTwo.length :=
  Images_limit_truncation goDecode pageTwo 1 imgsTwo (by decide) (by decide)

/-- C5: whenever the locator succeeds but the located substring fails to
decode, `unpack` returns the decoder error untouched, which is
programmatically distinct from the format-drift sentinel: `IsUnpackErr` is
false on it. -/
theorem decode_error_distinct_from_errUnpack
    (decode : List Char → Except String (List Json)) (page s : List Char)
    (e : String) (hloc : locate page = .ok s) (hdec : decode s = .error e) :
    unpack decode page = .error (.decodeErr e) ∧
      IsUnpackErr (.decodeErr e) = false ∧ GoErr.decodeErr e ≠ .errUnpack := by
  refine ⟨?_, rfl, by simp⟩
  unfold unpack
  rw [hloc]
  simp only [Bind.bind, Except.bind]
  rw [hdec]

/-- C5 (witness): the theorem applied to the concrete page whose located
substring is the invalid JSON text. -/
theorem decode_error_distinct_from_errUnpack_witness :
    unpack goDecode pageBadJson = .error (.decodeErr "invalid character") ∧
      IsUnpackErr (.decodeErr "invalid character") = false ∧
      GoErr.decodeErr "invalid character" ≠ .errUnpack :=
  decode_error_distinct_from_errUnpack goDecode pageBadJson "[zz".data
    "invalid character" (by decide) rfl

/-- C9: whenever `Images` succeeds with record list `imgs` on a page and
limit, `Urls` on the same inputs returns exactly `imgs.map Image.Url`: the
url list is the field-wise image of the record list, in the same order and
of the same length. -/
theorem Urls_is_mapped_Images
    (decode : List Char → Except String (List Json)) (page : List Char)
    (limit : Int) (imgs : List Image)
    (h : ImagesFromPage decode page limit = .ok imgs) :
    UrlsFromPage decode page limit = .ok (imgs.map Image.Url) := by
  cases hu : unpack decode page with
  | error e =>
    rw [ImagesFromPage_err decode page limit e hu] at h
    cases h
  | ok l =>
    rw [ImagesFromPage_ok decode page limit l hu] at h
    simp only [Except.ok.injEq] at h
    rw [UrlsFromPage_ok decode page limit l hu, h]

/-- C9 (witness): the theorem applied to a concrete two-record page with
limit 0. -/
theorem Urls_is_mapped_Images_witness :
    UrlsFromPage goDecode pageTwo 0 =
      .ok ([⟨"u1", "s1", "b1"⟩, ⟨"u2", "s2", "b2"⟩].map Image.Url) :=
  Urls_is_mapped_Images goDecode pageTwo 0
    [⟨"u1", "s1", "b1"⟩, ⟨"u2", "s2", "b2"⟩] (by decide)

/-- C10: `Download` treats limit 0 as a bound, not as unbounded: its loop
`for len(paths) < limit` runs zero times, so for every download oracle and
every url list it performs no downloads and returns the empty path list,
`missing = 0` and a nil error — unlike `Images`, which returns all records
when the limit is 0. -/
theorem Download_limit_zero_is_empty :
    (∀ (dl : String → Option String) (urls : List String),
        DownloadGo dl urls 0 = ([], 0, none)) ∧
    (∀ (decode : List Char → Except String (List Json)) (page : List Char)
        (imgs : List Image), unpack decode page = .ok imgs →
        ImagesFromPage decode page 0 = .ok imgs) := by
  constructor
  · intro dl urls
    rfl
  · intro decode page imgs h
    rw [ImagesFromPage_ok decode page 0 imgs h]
    norm_num

/-- C10 (witness): the theorem applied at a concrete failing oracle and a
concrete two-record page. -/
theorem Download_limit_zero_is_empty_witness :
    DownloadGo (fun _ => none) ["u1"] 0 = ([], 0, none) ∧
      ImagesFromPage goDecode pageTwo 0 =
        .ok [⟨"u1", "s1", "b1"⟩, ⟨"u2", "s2", "b2"⟩] :=
  ⟨Download_limit_zero_is_empty.1 (fun _ => none) ["u1"],
   Download_limit_zero_is_empty.2 goDecode pageTwo
     [⟨"u1", "s1", "b1"⟩, ⟨"u2", "s2", "b2"⟩] (by decide)⟩

/-- C4: an entry whose details slot (index 1 under the magic key) is null
is skipped silently — removing it from the entry list anywhere changes
neither the collected records nor the outcome, so the remaining entries are
projected in their original relative order; concretely, on the five-entry
page whose third entry has a null details slot, extraction with limit 0
returns exactly the four records of entries 1, 2, 4, 5 in order. -/
theorem null_details_entry_skipped :
    (∀ (pre post : List Json) (v : Json),
        collectImages (pre ++ nullDetailsEntry v :: post) =
          collectImages (pre ++ post)) ∧
    ImagesFromPage goDecode pageFive 0 =
      .ok [⟨"u1", "s1", "b1"⟩, ⟨"u2", "s2", "b2"⟩,
           ⟨"u4", "s4", "b4"⟩, ⟨"u5", "s5", "b5"⟩] :=
  ⟨collect_skips_nullDetails, by decide⟩

/-- C7: when the per-asset downloads fail and the candidates are exhausted,
`Download` does return a nil error, but the inner retry loop leaves the
empty-string `file` of the failed attempt behind and the outer loop
appends it to `paths`, so the returned path list contains a bogus entry for
a download that never succeeded, and `missing` undercounts: with 1 url, a
limit of 2 and every download failing, 0 of the 2 requests are satisfied,
yet the call returns `paths = [""]` and `missing = 1` instead of `paths = []`
and `missing = 2`. -/
theorem Download_tail_failure_miscounts :
    DownloadGo (fun _ => none) ["u1"] 2 = ([""], 1, none) ∧
      DownloadGo (fun _ => none) ["u1"] 1 = ([""], 1, none) := by decide

/-- C8 (counterexample): the drafts are not behaviorally equal.  On a page
with one record and limit 0, the first draft truncates to the empty list
(its guard lacks the `limit > 0` conjunct) while the final revision returns
the record; on a page without the marker token, the first draft panics
while the final revision returns the classified `errUnpack`. -/
theorem drafts_disagree_cex :
    ImagesD1FromPage goDecode pageOne 0 = .ok [] ∧
      ImagesFromPage goDecode pageOne 0 = .ok [⟨"u1", "s1", "b1"⟩] ∧
      findImages goDecode pageNoMarker =
        .error (.panicked "slice bounds out of range") ∧
      unpack goDecode pageNoMarker = .error .errUnpack := by decide

/-- Agreement of the two locators on successful pages: whenever the
final-revision locator succeeds, the guardless first-draft locator returns
the same substring (they run the identical searches, slices and end-offset
arithmetic and differ only in how failures are reported). -/
theorem locateD1_eq_of_locate_ok (page s : List Char) (h : locate page = .ok s) :
    locateD1 page = .ok s := by
  unfold locate at h
  unfold locateD1
  cases hm : lastIdx markerTok page with
  | none =>
    rw [hm] at h
    cases h
  | some scriptStart =>
    rw [hm] at h
    simp only [] at h ⊢
    cases hf : firstIdx ['['] (page.drop scriptStart) with
    | none =>
      rw [hf] at h
      cases h
    | some startChar =>
      rw [hf] at h
      simp only [] at h ⊢
      split at h
      · cases h
      · split at h
        · cases h
        · rw [if_neg (by assumption)]
          exact h

/-- C8 (amended): the drafts agree only on the pages where the locator
succeeds and only for positive limits: there the first-draft pipeline
(`findImages` plus the first `Images`) and the final pipeline (`unpack`
plus the final `Images`) return equal record lists and equal error
classifications.  They disagree at limit 0 (the first draft truncates to
nothing, the final revision returns everything) and on locator failures
(the first draft panics, the final revision returns `errUnpack`). -/
theorem drafts_agree_on_guarded_pages
    (decode : List Char → Except String (List Json)) (page s : List Char)
    (limit : Int) (hloc : locate page = .ok s) (hl : 0 < limit) :
    ImagesD1FromPage decode page limit = ImagesFromPage decode page limit := by
  have hd1 := locateD1_eq_of_locate_ok page s hloc
  unfold ImagesD1FromPage ImagesFromPage findImages unpack
  rw [hloc, hd1]
  simp only [Bind.bind, Except.bind]
  cases decode s with
  | error e => rfl
  | ok tree =>
    simp only []
    cases navigate tree with
    | error e => rfl
    | ok imgs =>
      simp only []
      by_cases hc : limit < (imgs.length : Int)
      · rw [if_pos hc, if_neg (by omega), if_pos (And.intro hc hl)]
      · rw [if_neg hc, if_neg (fun hand => hc hand.1)]

/-- C8 (witness): the agreement theorem applied to a concrete one-record
page with limit 1. -/
theorem drafts_agree_on_guarded_pages_witness :
    ImagesD1FromPage goDecode pageOne 1 = ImagesFromPage goDecode pageOne 1 :=
  drafts_agree_on_guarded_pages goDecode pageOne
    (mkTop [mkEntry "u1" "s1" "b1"]).data 1 (by decide) (by decide)

/-- C6 (counterexample): the code accepts any string, including the empty
one, in a field position: on a page whose entry carries `""` in the
asset-url slot, `unpack` emits a record whose `Url` field is the empty
string, refuting the claim that every emitted record has three non-empty
fields. -/
theorem emitted_record_with_empty_field_cex :
    unpack goDecode pageEmptyUrl = .ok [⟨"", "s1", "b1"⟩] ∧
      (⟨"", "s1", "b1"⟩ : Image).Url = "" := ⟨by decide, rfl⟩

/-- C6 (amended): every emitted record has all three fields present as
strings read from the fixed navigation positions of its entry — the
guarded readback `entryStrings` recovers exactly the record's fields — but
the strings may be empty, and an entry lacking a required field makes the
whole call panic rather than being dropped. -/
theorem emitted_fields_present_as_strings (entry : Json) (img : Image)
    (h : projectEntry entry = .ok (some img)) :
    entryStrings entry = some (img.Url, img.Source, img.Base) := by
  unfold projectEntry at h
  simp only [bindOkIff] at h
  obtain ⟨a, ha, t0, ht0, e0, he0, t1, ht1, m, hm, magic, hmagic, obj, hobj, h⟩ := h
  cases obj with
  | null => simp [pure, Except.pure] at h
  | bool b => simp [bindOkIff, asArr] at h
  | num n => simp [bindOkIff, asArr] at h
  | str s => simp [bindOkIff, asArr] at h
  | obj kvs => simp [bindOkIff, asArr] at h
  | arr objElems =>
    simp only [bindOkIff] at h
    obtain ⟨objArr, hobjArr, u3, hu3, u3Arr, hu3Arr, u0, hu0, url, hurl,
      objArr2, hobjArr2, v9, hv9, m9, hm9, sourceInfo, hsi, s2, hs2,
      source, hsource, s17, hs17, base, hbase, h⟩ := h
    obtain rfl := asArr_ok ha
    have g0 := idx_ok ht0
    obtain rfl := asArr_ok he0
    have g1 := idx_ok ht1
    obtain rfl := asObj_ok hm
    have gm := asArr_ok hmagic
    have g2 := idx_ok hobj
    simp only [asArr, Except.ok.injEq] at hobjArr
    subst hobjArr
    have g3 := idx_ok hu3
    obtain rfl := asArr_ok hu3Arr
    have g4 := idx_ok hu0
    obtain rfl := asStr_ok hurl
    simp only [asArr, Except.ok.injEq] at hobjArr2
    subst hobjArr2
    have g5 := idx_ok hv9
    obtain rfl := asObj_ok hm9
    have gsi := asArr_ok hsi
    have g6 := idx_ok hs2
    obtain rfl := asStr_ok hsource
    have g7 := idx_ok hs17
    obtain rfl := asStr_ok hbase
    simp only [pure, Except.pure, Except.ok.injEq, Option.some.injEq] at h
    subst h
    simp [entryStrings, entryDetails, detailsUrl, detailsSourceBase,
      jArr, jObj, jStr, g0, g1, gm, g2, g3, g4, g5, g6, g7, gsi]

/-- A concrete details value carrying an empty asset url. -/
def sampleDetails : Json :=
  Json.arr [Json.num 0, Json.num 0, Json.num 0, Json.arr [Json.str ""],
    Json.num 0, Json.num 0, Json.num 0, Json.num 0, Json.num 0,
    Json.obj [("2003",
      Json.arr ([Json.num 0, Json.num 0, Json.str "s1"]
        ++ List.replicate 14 (Json.num 0) ++ [Json.str "b1"]))]]

/-- A concrete candidate entry wrapping `sampleDetails`. -/
def sampleEntry : Json :=
  Json.arr [Json.arr [Json.obj [("444383007",
    Json.arr [Json.num 0, sampleDetails])]]]

/-- C6 (witness): the amended theorem applied to the concrete entry. -/
theorem emitted_fields_present_as_strings_witness :
    entryStrings sampleEntry = some ("", "s1", "b1") :=
  emitted_fields_present_as_strings sampleEntry ⟨"", "s1", "b1"⟩ (by decide)
